import Mathlib

/-!
# Verification of the uhyve core against its specification

Shallow embedding of the uhyve hypervisor core (src/vm.rs,
src/linux/uhyve.rs, src/params.rs) in Lean 4, together with theorems
settling the specification claims about it.

Machine integers are modelled as `Nat`/`Int`; guest memory is modelled as a
byte-valued function `Nat → Nat` together with an explicit length, matching
the Rust slice view `vm_slice : &mut [u8]`.
-/

namespace Uhyve

/-! ## Constants (src/linux/uhyve.rs, src/params.rs) -/

/-- `KVM_32BIT_MAX_MEM_SIZE = 1 << 32` (src/linux/uhyve.rs). -/
def KVM_32BIT_MAX_MEM_SIZE : Nat := 1 <<< 32

/-- `KVM_32BIT_GAP_SIZE = 768 << 20` (src/linux/uhyve.rs). -/
def KVM_32BIT_GAP_SIZE : Nat := 768 <<< 20

/-- `KVM_32BIT_GAP_START = KVM_32BIT_MAX_MEM_SIZE - KVM_32BIT_GAP_SIZE`. -/
def KVM_32BIT_GAP_START : Nat := KVM_32BIT_MAX_MEM_SIZE - KVM_32BIT_GAP_SIZE

/-! ## Guest memory size validation (src/params.rs) -/

/-- `GuestMemorySize`: a validated guest RAM size in bytes (src/params.rs). -/
structure GuestMemorySize where
  bytes : Nat
  deriving Repr, DecidableEq

/-- `GuestMemorySize::minimum() = 16 * 1024 * 1024` bytes (src/params.rs). -/
def GuestMemorySize.minimum : Nat := 16 * 1024 * 1024

/-- `InvalidGuestMemorySizeError(AdjustedByte)` (src/params.rs); we keep the
raw byte value rather than the display-adjusted one. -/
structure InvalidGuestMemorySizeError where
  bytes : Nat
  deriving Repr, DecidableEq

/-- `impl TryFrom<Byte> for GuestMemorySize` (src/params.rs):
succeeds iff `value >= Self::minimum()`. -/
def GuestMemorySize.tryFrom (value : Nat) :
    Except InvalidGuestMemorySizeError GuestMemorySize :=
  if GuestMemorySize.minimum ≤ value then
    .ok ⟨value⟩
  else
    .error ⟨value⟩

/-! ## Load base and entry point selection (src/vm.rs, `load_kernel`) -/

/-- The `(start_address, elf_entry)` pair chosen by `load_kernel`
(src/vm.rs): `(0x400000, 0x400000 + elf.entry)` for a position-independent
(`ET_DYN`) image, `(0x800000, elf.entry)` otherwise. -/
def startAddressAndEntry (is_dyn : Bool) (e_entry : Nat) : Nat × Nat :=
  if is_dyn then
    (0x400000, 0x400000 + e_entry)
  else
    (0x800000, e_entry)

/-! ## KVM user memory region registration (src/linux/uhyve.rs, `Uhyve::new`) -/

/-- `kvm_userspace_memory_region` as filled in by `Uhyve::new`. -/
structure KvmUserspaceMemoryRegion where
  slot : Nat
  flags : Nat
  memory_size : Nat
  guest_phys_addr : Nat
  userspace_addr : Nat
  deriving Repr, DecidableEq

/-- The sequence of `set_user_memory_region` calls made by `Uhyve::new`
(src/linux/uhyve.rs): slot 0 covers `min(memory_size, KVM_32BIT_GAP_START)`
bytes from guest physical 0 at the host base; if
`memory_size > KVM_32BIT_GAP_START + KVM_32BIT_GAP_SIZE` a second slot covers
the remainder starting at guest physical (and host offset) 4 GiB.
`guest_address` of the mapping is 0 (`MmapMemory::new(0, memory_size, 0, ..)`). -/
def memoryRegions (memory_size host_address flags : Nat) :
    List KvmUserspaceMemoryRegion :=
  let sz := min memory_size KVM_32BIT_GAP_START
  let slot0 : KvmUserspaceMemoryRegion :=
    { slot := 0
      flags := flags
      memory_size := sz
      guest_phys_addr := 0
      userspace_addr := host_address }
  if memory_size > KVM_32BIT_GAP_START + KVM_32BIT_GAP_SIZE then
    [slot0,
     { slot := 1
       flags := flags
       memory_size := memory_size - KVM_32BIT_GAP_START - KVM_32BIT_GAP_SIZE
       guest_phys_addr := KVM_32BIT_GAP_START + KVM_32BIT_GAP_SIZE
       userspace_addr := host_address + KVM_32BIT_GAP_START + KVM_32BIT_GAP_SIZE }]
  else
    [slot0]

/-! ## Capability setup in `Uhyve::new` (src/linux/uhyve.rs) -/

/-- KVM capability number `KVM_CAP_IRQFD` (kvm ABI). -/
def KVM_CAP_IRQFD : Nat := 32

/-- KVM capability number `KVM_CAP_TSC_DEADLINE_TIMER` (kvm ABI). -/
def KVM_CAP_TSC_DEADLINE_TIMER : Nat := 72

/-- KVM capability number `KVM_CAP_X2APIC_API` (kvm ABI). -/
def KVM_CAP_X2APIC_API : Nat := 129

/-- KVM capability number `KVM_CAP_X86_DISABLE_EXITS` (kvm ABI). -/
def KVM_CAP_X86_DISABLE_EXITS : Nat := 143

/-- Outcome of the capability-enabling sequence in `Uhyve::new`: either all
`expect`/`expect_err` assertions hold, or the process panics with the given
message. -/
inductive CapSetupOutcome where
  | ok
  | panic (msg : String)
  deriving Repr, DecidableEq

/-- The `enable_cap` assertion sequence of `Uhyve::new` (src/linux/uhyve.rs,
after `create_irq_chip`), as a function of which capabilities the host lets
`enable_cap` succeed on. Mirrors the source order and assertion direction:
x2APIC — `.expect(..)` (panic on failure); TSC-deadline — `.expect_err(..)`
(panic on success); IRQFD — `.expect_err(..)` (panic on success);
X86Disable-exits — `.expect(..)` (panic on failure). Panic messages are the
source messages with punctuation simplified. -/
def uhyveNewCapSetup (enableCap : Nat → Bool) : CapSetupOutcome :=
  if !enableCap KVM_CAP_X2APIC_API then
    .panic "Unable to enable x2apic support"
  else if enableCap KVM_CAP_TSC_DEADLINE_TIMER then
    .panic "Processor feature tsc deadline is not supported!"
  else if enableCap KVM_CAP_IRQFD then
    .panic "The support of KVM_CAP_IRQFD is currently required"
  else if !enableCap KVM_CAP_X86_DISABLE_EXITS then
    .panic "Unable to disable exists due pause instructions"
  else
    .ok

end Uhyve

namespace Uhyve

/-! ## Theorems for C9, C6, C8 -/

/-- C9: constructing a `GuestMemorySize` from any byte value strictly below
16 MiB fails with `InvalidGuestMemorySizeError`, and any value at least
16 MiB succeeds, preserving the value. -/
theorem guestMemorySize_tryFrom_spec (value : Nat) :
    (value < 16 * 1024 * 1024 →
      GuestMemorySize.tryFrom value = .error ⟨value⟩) ∧
    (16 * 1024 * 1024 ≤ value →
      GuestMemorySize.tryFrom value = .ok ⟨value⟩) := by
  constructor
  · intro h
    simp [GuestMemorySize.tryFrom, GuestMemorySize.minimum, Nat.not_le.mpr h]
  · intro h
    simp [GuestMemorySize.tryFrom, GuestMemorySize.minimum, h]

/-- Witness for C9 at the concrete values 16 MiB − 1 and 64 MiB. -/
theorem guestMemorySize_tryFrom_spec_witness :
    (16777215 < 16 * 1024 * 1024 ∧
      GuestMemorySize.tryFrom 16777215 = .error ⟨16777215⟩) ∧
    (16 * 1024 * 1024 ≤ 67108864 ∧
      GuestMemorySize.tryFrom 67108864 = .ok ⟨67108864⟩) :=
  ⟨⟨by decide, (guestMemorySize_tryFrom_spec 16777215).1 (by decide)⟩,
   ⟨by decide, (guestMemorySize_tryFrom_spec 67108864).2 (by decide)⟩⟩

/-- C6: for every loaded image, a position-independent (`ET_DYN`) image gets
load base `0x400000` and entry `0x400000 + e_entry`; any other image gets
load base `0x800000` and entry `e_entry` unchanged. -/
theorem startAddressAndEntry_spec (is_dyn : Bool) (e_entry : Nat) :
    startAddressAndEntry is_dyn e_entry =
      if is_dyn then (0x400000, 0x400000 + e_entry) else (0x800000, e_entry) := by
  rfl

/-- Normal form of `memoryRegions`: one slot up to 4 GiB, two slots above. -/
theorem memoryRegions_eq (size host flags : Nat) :
    memoryRegions size host flags =
      if 2 ^ 32 < size then
        [⟨0, flags, min size 3489660928, 0, host⟩,
         ⟨1, flags, size - 2 ^ 32, 2 ^ 32, host + 2 ^ 32⟩]
      else
        [⟨0, flags, min size 3489660928, 0, host⟩] := by
  have h1 : KVM_32BIT_GAP_START = 3489660928 := by decide
  have h2 : KVM_32BIT_GAP_SIZE = 805306368 := by decide
  simp only [memoryRegions, h1, h2]
  by_cases h : 2 ^ 32 < size
  · rw [if_pos h, if_pos (show size > 3489660928 + 805306368 by omega)]
    simp only [KvmUserspaceMemoryRegion.mk.injEq, List.cons.injEq, true_and, and_true]
    omega
  · rw [if_neg h, if_neg (show ¬ size > 3489660928 + 805306368 by omega)]

/-- C8: slot 0 covers `[0, min(size, 3.25 GiB))` at the host base; a second
slot for `[4 GiB, size)` at host base + 4 GiB exists exactly when
`size > 4 GiB`; `size = 3.25 GiB` yields one slot and `size = 5 GiB` yields
two slots separated by a 768 MiB guest-physical hole. -/
theorem memoryRegions_spec (size host flags : Nat) :
    (memoryRegions size host flags).head? =
      some ⟨0, flags, min size (3 * 2 ^ 30 + 256 * 2 ^ 20), 0, host⟩ ∧
    ((memoryRegions size host flags).length = 2 ↔ 2 ^ 32 < size) ∧
    (2 ^ 32 < size →
      (memoryRegions size host flags).getLast? =
        some ⟨1, flags, size - 2 ^ 32, 2 ^ 32, host + 2 ^ 32⟩) ∧
    (memoryRegions (3 * 2 ^ 30 + 256 * 2 ^ 20) host flags).length = 1 ∧
    memoryRegions (5 * 2 ^ 30) host flags =
      [⟨0, flags, 3 * 2 ^ 30 + 256 * 2 ^ 20, 0, host⟩,
       ⟨1, flags, 5 * 2 ^ 30 - 2 ^ 32, 2 ^ 32, host + 2 ^ 32⟩] ∧
    2 ^ 32 - (3 * 2 ^ 30 + 256 * 2 ^ 20) = 768 * 2 ^ 20 := by
  have hc : (3 : Nat) * 2 ^ 30 + 256 * 2 ^ 20 = 3489660928 := by norm_num
  refine ⟨?_, ?_, ?_, ?_, ?_, by norm_num⟩
  · rw [memoryRegions_eq, hc]
    by_cases h : 2 ^ 32 < size
    · rw [if_pos h]; rfl
    · rw [if_neg h]; rfl
  · rw [memoryRegions_eq]
    by_cases h : 2 ^ 32 < size
    · rw [if_pos h]; simpa using h
    · rw [if_neg h]; simpa using h
  · intro h
    rw [memoryRegions_eq, if_pos h]
    rfl
  · rw [memoryRegions_eq, if_neg (by norm_num)]
    rfl
  · rw [memoryRegions_eq, if_pos (by norm_num)]
    norm_num

/-- Witness for C8 at `size = 5 GiB`. -/
theorem memoryRegions_spec_witness :
    (2 : Nat) ^ 32 < 5 * 2 ^ 30 ∧
    (memoryRegions (5 * 2 ^ 30) 7 0).getLast? =
      some ⟨1, 0, 5 * 2 ^ 30 - 2 ^ 32, 2 ^ 32, 7 + 2 ^ 32⟩ :=
  ⟨by norm_num, (memoryRegions_spec (5 * 2 ^ 30) 7 0).2.2.1 (by norm_num)⟩

/-! ## Theorems for C3

The source (src/linux/uhyve.rs, `Uhyve::new`) calls
`vm.enable_cap(..).expect_err(..)` for BOTH `KVM_CAP_TSC_DEADLINE_TIMER` and
`KVM_CAP_IRQFD`: either `enable_cap` call succeeding makes construction
panic. The claim that enabling IRQ-FD is asserted to SUCCEED (panic on
failure) is therefore false on the code. -/

/-- C3 counterexample: a host on which `enable_cap` succeeds for x2APIC,
IRQ-FD and disable-exits and fails for TSC-deadline. The claim predicts that
construction passes both environmental checks (TSC-deadline not enableable,
IRQ-FD enableable), yet `Uhyve::new` panics on the IRQ-FD `expect_err`. -/
theorem uhyveNewCapSetup_c3_counterexample :
    (fun c => decide (c = 129 ∨ c = 32 ∨ c = 143)) KVM_CAP_IRQFD = true ∧
    uhyveNewCapSetup (fun c => decide (c = 129 ∨ c = 32 ∨ c = 143)) =
      .panic "The support of KVM_CAP_IRQFD is currently required" := by
  constructor
  · decide
  · rfl

/-- C3 (amended): during VM construction, x2APIC and disable-exits enabling
must succeed, and BOTH the TSC-deadline and the IRQ-FD `enable_cap` attempts
are asserted to fail (`expect_err`): construction panics if either enabling
succeeds; it completes the capability sequence exactly when x2APIC and
disable-exits enable and TSC-deadline and IRQ-FD do not. -/
theorem uhyveNewCapSetup_spec (f : Nat → Bool) :
    (f KVM_CAP_X2APIC_API = true → f KVM_CAP_TSC_DEADLINE_TIMER = true →
      uhyveNewCapSetup f =
        .panic "Processor feature tsc deadline is not supported!") ∧
    (f KVM_CAP_X2APIC_API = true → f KVM_CAP_TSC_DEADLINE_TIMER = false →
      f KVM_CAP_IRQFD = true →
      uhyveNewCapSetup f =
        .panic "The support of KVM_CAP_IRQFD is currently required") ∧
    (uhyveNewCapSetup f = .ok ↔
      f KVM_CAP_X2APIC_API = true ∧ f KVM_CAP_TSC_DEADLINE_TIMER = false ∧
      f KVM_CAP_IRQFD = false ∧ f KVM_CAP_X86_DISABLE_EXITS = true) := by
  cases h1 : f KVM_CAP_X2APIC_API <;>
    cases h2 : f KVM_CAP_TSC_DEADLINE_TIMER <;>
      cases h3 : f KVM_CAP_IRQFD <;>
        cases h4 : f KVM_CAP_X86_DISABLE_EXITS <;>
          simp [uhyveNewCapSetup, h1, h2, h3, h4]

/-- Witness for C3 (amended) on a host where the TSC-deadline enable call
succeeds: construction panics. -/
theorem uhyveNewCapSetup_spec_witness :
    uhyveNewCapSetup (fun c => c == 129 || c == 72 || c == 143) =
      .panic "Processor feature tsc deadline is not supported!" :=
  (uhyveNewCapSetup_spec (fun c => c == 129 || c == 72 || c == 143)).1
    (by decide) (by decide)

end Uhyve

namespace Uhyve

/-! ## Hypercall argument blocks and handlers (src/vm.rs)

The argument blocks mirror the `#[repr(C, packed)]` structs of src/vm.rs;
guest pointers are modelled as `Nat` addresses. Each handler of the
`VirtualCPU` trait is embedded as a pure function of the host system call's
result: `hostRes` stands for the value returned by the `libc` call the
handler makes (`open`/`close`/`read`/`lseek`/`unlink` return −1 on failure,
`read`/`write` return the byte count on success). -/

/-- `SysWrite` (src/vm.rs): `{fd, buf, len}` — note there is NO `ret` field. -/
structure SysWrite where
  fd : Int
  buf : Nat
  len : Nat
  deriving Repr, DecidableEq

/-- `SysRead` (src/vm.rs): `{fd, buf, len, ret}`. -/
structure SysRead where
  fd : Int
  buf : Nat
  len : Nat
  ret : Int
  deriving Repr, DecidableEq

/-- `SysClose` (src/vm.rs): `{fd, ret}`. -/
structure SysClose where
  fd : Int
  ret : Int
  deriving Repr, DecidableEq

/-- `SysOpen` (src/vm.rs): `{name, flags, mode, ret}`. -/
structure SysOpen where
  name : Nat
  flags : Int
  mode : Int
  ret : Int
  deriving Repr, DecidableEq

/-- `SysLseek` (src/vm.rs): `{fd, offset, whence}`; `offset` is overwritten
with the host `lseek` result. -/
structure SysLseek where
  fd : Int
  offset : Int
  whence : Int
  deriving Repr, DecidableEq

/-- `SysUnlink` (src/vm.rs): `{name, ret}`. -/
structure SysUnlink where
  name : Nat
  ret : Int
  deriving Repr, DecidableEq

/-- `VirtualCPU::open` (src/vm.rs): stores the host `open` result in `ret`. -/
def openHandler (hostRes : Int) (s : SysOpen) : SysOpen :=
  { s with ret := hostRes }

/-- `VirtualCPU::close` (src/vm.rs): stores the host `close` result in `ret`. -/
def closeHandler (hostRes : Int) (s : SysClose) : SysClose :=
  { s with ret := hostRes }

/-- `VirtualCPU::unlink` (src/vm.rs): stores the host `unlink` result in
`ret`. -/
def unlinkHandler (hostRes : Int) (s : SysUnlink) : SysUnlink :=
  { s with ret := hostRes }

/-- `VirtualCPU::lseek` (src/vm.rs): overwrites `offset` with the host
`lseek` result (−1 on failure). -/
def lseekHandler (hostRes : Int) (s : SysLseek) : SysLseek :=
  { s with offset := hostRes }

/-- `VirtualCPU::read` (src/vm.rs): `ret` is the byte count when the host
`read` returns non-negative, −1 otherwise. -/
def readHandler (hostRes : Int) (s : SysRead) : SysRead :=
  if 0 ≤ hostRes then { s with ret := hostRes } else { s with ret := -1 }

/-- The `while bytes_written != syswrite.len` loop of `VirtualCPU::write`
(src/vm.rs). `hostWrite n` is the result of
`libc::write(fd, host_address(buffer + n), len - n)`; a negative result
makes the handler return `Err(io::Error::last_os_error())`. `fuel` bounds
the number of iterations; `none` means the loop is still running. -/
def writeLoop (hostWrite : Nat → Int) (len : Nat) :
    Nat → Nat → Option (Except Unit Unit)
  | _, 0 => none
  | bytes_written, fuel + 1 =>
    if bytes_written = len then
      some (.ok ())
    else
      let step := hostWrite bytes_written
      if 0 ≤ step then
        writeLoop hostWrite len (bytes_written + step.toNat) fuel
      else
        some (.error ())

/-- `VirtualCPU::write` (src/vm.rs): takes the block by shared reference
(`&SysWrite`), so the argument block is never modified; the handler's only
outcome is `Ok(())` or an `io::Error` returned to the dispatcher. -/
def writeHandler (hostWrite : Nat → Int) (s : SysWrite) (fuel : Nat) :
    Option (Except Unit Unit) :=
  writeLoop hostWrite s.len 0 fuel

/-- C2 counterexample: the WRITE hypercall with `len = 6` whose host `write`
fails (returns −1). Its handler surfaces the failure as an `Err` result to
the dispatcher; `SysWrite` has no `ret` field and is taken by shared
reference, so nothing is reported to the guest through the WRITE argument
block, contrary to the claim. -/
theorem writeHandler_c2_counterexample :
    writeHandler (fun _ => -1) ⟨1, 0, 6⟩ 1 = some (.error ()) := by
  rfl

/-- C2 (amended): failing host calls of OPEN, CLOSE, UNLINK, LSEEK and READ
are reported to the guest inside the argument block (`ret` −1/negative,
`offset` negative for LSEEK) and the handler returns normally; a failing
host `write` during WRITE is instead returned as an error to the dispatcher
and the `SysWrite` block (which has no `ret` field) is not modified. -/
theorem hypercallFailureReporting (hostRes : Int) (so : SysOpen)
    (sc : SysClose) (su : SysUnlink) (sl : SysLseek) (sr : SysRead)
    (sw : SysWrite) (hostWrite : Nat → Int) (fuel : Nat)
    (hneg : hostRes < 0) (hwneg : hostWrite 0 < 0) (hlen : 0 < sw.len) :
    (openHandler hostRes so).ret < 0 ∧
    (closeHandler hostRes sc).ret < 0 ∧
    (unlinkHandler hostRes su).ret < 0 ∧
    (lseekHandler hostRes sl).offset < 0 ∧
    (readHandler hostRes sr).ret = -1 ∧
    writeHandler hostWrite sw (fuel + 1) = some (.error ()) := by
  refine ⟨hneg, hneg, hneg, hneg, ?_, ?_⟩
  · simp [readHandler, not_le.mpr hneg]
  · have hne : (0 : Nat) ≠ sw.len := by omega
    simp [writeHandler, writeLoop, hne, not_le.mpr hwneg]

/-- Witness for C2 (amended) at concrete failing host calls. -/
theorem hypercallFailureReporting_witness :
    (openHandler (-1) ⟨0, 0, 0, 0⟩).ret < 0 ∧
    (closeHandler (-1) ⟨3, 0⟩).ret < 0 ∧
    (unlinkHandler (-1) ⟨0, 0⟩).ret < 0 ∧
    (lseekHandler (-1) ⟨3, 5, 0⟩).offset < 0 ∧
    (readHandler (-1) ⟨3, 0, 16, 0⟩).ret = -1 ∧
    writeHandler (fun _ => -2) ⟨3, 0, 4⟩ (0 + 1) = some (.error ()) :=
  hypercallFailureReporting (-1) ⟨0, 0, 0, 0⟩ ⟨3, 0⟩ ⟨0, 0⟩ ⟨3, 5, 0⟩
    ⟨3, 0, 16, 0⟩ ⟨3, 0, 4⟩ (fun _ => -2) 0 (by decide) (by decide) (by decide)

end Uhyve

namespace Uhyve

/-! ## SharedQueue and the TapWorker threads (src/linux/uhyve.rs)

`UhyveNetwork::new` spawns a writer thread (drains the TX queue towards the
TAP device on each channel message) and a reader thread (fills the RX queue
from the TAP device). The `SharedQueue` struct itself lives in
src/shared_queue.rs, which is not part of the given sources; its fields
`written`, `read` and `inner[i].{len, data}` are modelled from the spec
(fixed ring of `UHYVE_QUEUE_SIZE` slots, head/tail counters monotonically
increasing, slot index = counter mod size), exactly as the two threads in
src/linux/uhyve.rs use them. The queue size is kept as a parameter
`queueSize` (the constant `UHYVE_QUEUE_SIZE` of crate::consts is likewise
not in the given sources). -/

/-- One ring slot: `{len, data}`. `data` is a byte-valued function. -/
structure QueueSlot where
  len : Nat
  data : Nat → Nat

/-- Modelled from the spec: `SharedQueue` — fixed ring with monotonically
increasing `written`/`read` counters and slots `inner`, addressed by
`counter mod queueSize` as in src/linux/uhyve.rs. -/
structure SharedQueue where
  written : Nat
  read : Nat
  inner : Nat → QueueSlot

/-- The writer thread's per-message body (src/linux/uhyve.rs, the loop body
after `rx.recv()`): reads `written` and `read`, and IF `written - read > 0`
sends slot `read % queueSize`'s first `len` bytes to the TAP device and
advances `read` by one; otherwise does nothing. Returns the new queue state
and the frame sent, if any. Note the source uses `if`, not `while`: at most
one slot is processed per channel message. -/
def writerStep (queueSize : Nat) (q : SharedQueue) : SharedQueue × Option (List Nat) :=
  let written := q.written
  let read := q.read
  let distance := written - read
  if 0 < distance then
    let idx := read % queueSize
    let len := (q.inner idx).len
    let frame := (List.range len).map (q.inner idx).data
    ({ q with read := read + 1 }, some frame)
  else
    (q, none)

/-- The reader thread's loop body (src/linux/uhyve.rs): if
`written - read < queueSize`, receive a frame from the TAP device into slot
`written % queueSize`, store its length, advance `written` by one and write
the event FD (returned `Bool` = IRQ asserted); otherwise spin without
touching the queue. `recvLen`/`recvData` model the TAP `recv` result. -/
def readerStep (queueSize recvLen : Nat) (recvData : Nat → Nat)
    (q : SharedQueue) : SharedQueue × Bool :=
  let distance := q.written - q.read
  if distance < queueSize then
    let idx := q.written % queueSize
    ({ q with
        inner := fun j => if j = idx then ⟨recvLen, recvData⟩ else q.inner j
        written := q.written + 1 },
     true)
  else
    (q, false)

/-- The host-side occupancy invariant: `0 ≤ written − read ≤ queueSize`
(the first inequality as `read ≤ written` over `Nat`). -/
def queueInv (queueSize : Nat) (q : SharedQueue) : Prop :=
  q.read ≤ q.written ∧ q.written - q.read ≤ queueSize

/-- A host-thread action on a queue: one reader-loop iteration (with the TAP
`recv` outcome) or one writer wake-up. -/
inductive HostStep where
  | reader (recvLen : Nat) (recvData : Nat → Nat)
  | writer

/-- Apply one host-thread action to a queue. -/
def applyHostStep (queueSize : Nat) (q : SharedQueue) : HostStep → SharedQueue
  | .reader recvLen recvData => (readerStep queueSize recvLen recvData q).1
  | .writer => (writerStep queueSize q).1

/-- A queue for the C1 counterexample: two frames pending
(`written = 2`, `read = 0`), all slots holding a 1-byte frame. -/
def c1Queue : SharedQueue :=
  { written := 2, read := 0, inner := fun _ => ⟨1, fun _ => 0xAB⟩ }

end Uhyve

namespace Uhyve

/-- C1 counterexample: with two frames pending (`written = 2, read = 0`,
queue size 8), one channel message makes the writer thread process exactly
one slot, leaving `read = 1 ≠ 2 = written`: the TX queue is NOT empty after
one wake-up, because the source guards the drain with `if distance > 0`
rather than a `while` loop. -/
theorem writerStep_c1_counterexample :
    (writerStep 8 c1Queue).1.read = 1 ∧
    (writerStep 8 c1Queue).1.written = 2 ∧
    (writerStep 8 c1Queue).1.written ≠ (writerStep 8 c1Queue).1.read := by
  refine ⟨rfl, rfl, ?_⟩
  decide

/-- C1 (amended): on each channel message the writer thread processes AT
MOST ONE slot: if `written > read` it sends slot `read mod queueSize`'s
`data[0..len]` to the TAP device and advances `read` by exactly one (leaving
`written` unchanged, so the queue is empty afterwards only if exactly one
frame was pending); if `written ≤ read` it leaves the queue untouched and
sends nothing. -/
theorem writerStep_spec (queueSize : Nat) (q : SharedQueue) :
    (q.read < q.written →
      writerStep queueSize q =
        ({ q with read := q.read + 1 },
         some ((List.range (q.inner (q.read % queueSize)).len).map
           (q.inner (q.read % queueSize)).data))) ∧
    (q.written ≤ q.read → writerStep queueSize q = (q, none)) := by
  constructor
  · intro h
    simp only [writerStep, if_pos (by omega : 0 < q.written - q.read)]
  · intro h
    simp only [writerStep, if_neg (by omega : ¬ 0 < q.written - q.read)]

/-- Witness for C1 (amended) on `c1Queue`. -/
theorem writerStep_spec_witness :
    c1Queue.read < c1Queue.written ∧
    writerStep 8 c1Queue =
      ({ c1Queue with read := c1Queue.read + 1 },
       some ((List.range (c1Queue.inner (c1Queue.read % 8)).len).map
         (c1Queue.inner (c1Queue.read % 8)).data)) :=
  ⟨by decide, (writerStep_spec 8 c1Queue).1 (by decide)⟩

/-- C7: host steps preserve `0 ≤ written − read ≤ queueSize`: the reader
thread, observing a full queue (`written − read = queueSize`), spins without
writing a slot or advancing `written`; it en-queues (filling the slot,
storing the length and incrementing `written`) only when there is room; the
writer thread advances `read` only when `written > read`; consequently every
queue state reached from an invariant-satisfying state through any sequence
of host steps still satisfies the invariant. -/
theorem sharedQueue_invariant (queueSize recvLen : Nat) (recvData : Nat → Nat)
    (q : SharedQueue) (h : queueInv queueSize q) :
    queueInv queueSize (readerStep queueSize recvLen recvData q).1 ∧
    queueInv queueSize (writerStep queueSize q).1 ∧
    (q.written - q.read = queueSize →
      readerStep queueSize recvLen recvData q = (q, false)) ∧
    ((writerStep queueSize q).1.read ≠ q.read → q.read < q.written) ∧
    (∀ steps : List HostStep,
      queueInv queueSize (steps.foldl (applyHostStep queueSize) q)) := by
  obtain ⟨h1, h2⟩ := h
  have hreaderAny : ∀ (rl : Nat) (rd : Nat → Nat) (p : SharedQueue),
      queueInv queueSize p →
      queueInv queueSize (readerStep queueSize rl rd p).1 := by
    intro rl rd p hp
    obtain ⟨hp1, hp2⟩ := hp
    by_cases hfull : p.written - p.read < queueSize
    · simp only [readerStep, if_pos hfull]
      constructor
      · show p.read ≤ p.written + 1
        omega
      · show p.written + 1 - p.read ≤ queueSize
        omega
    · simp only [readerStep, if_neg hfull]
      exact ⟨hp1, hp2⟩
  have hwriter : ∀ p : SharedQueue, queueInv queueSize p →
      queueInv queueSize (writerStep queueSize p).1 := by
    intro p hp
    obtain ⟨hp1, hp2⟩ := hp
    by_cases hpos : 0 < p.written - p.read
    · simp only [writerStep, if_pos hpos]
      constructor
      · show p.read + 1 ≤ p.written
        omega
      · show p.written - (p.read + 1) ≤ queueSize
        omega
    · simp only [writerStep, if_neg hpos]
      exact ⟨hp1, hp2⟩
  refine ⟨hreaderAny recvLen recvData q ⟨h1, h2⟩, hwriter q ⟨h1, h2⟩, ?_, ?_, ?_⟩
  · intro hfull
    have : ¬ q.written - q.read < queueSize := by omega
    simp only [readerStep, if_neg this]
  · intro hchanged
    by_contra hle
    have : ¬ 0 < q.written - q.read := by omega
    simp only [writerStep, if_neg this] at hchanged
    exact hchanged rfl
  · intro steps
    induction steps generalizing q with
    | nil => exact ⟨h1, h2⟩
    | cons s rest ih =>
      cases s with
      | reader rl rd =>
        exact ih _ (hreaderAny rl rd q ⟨h1, h2⟩).1 (hreaderAny rl rd q ⟨h1, h2⟩).2
      | writer =>
        exact ih _ (hwriter q ⟨h1, h2⟩).1 (hwriter q ⟨h1, h2⟩).2

/-- Witness for C7 on a concrete in-invariant queue. -/
theorem sharedQueue_invariant_witness :
    queueInv 8 c1Queue ∧
    queueInv 8 (writerStep 8 c1Queue).1 :=
  ⟨⟨by decide, by decide⟩,
   (sharedQueue_invariant 8 1 (fun _ => 0) c1Queue ⟨by decide, by decide⟩).2.1⟩

end Uhyve

namespace Uhyve

/-! ## CMDSIZE handler (src/vm.rs, `VirtualCPU::cmdsize`)

`cmdsize` fills the `SysCmdsize` block: `argsz[0] := kernel_path.len + 1`,
`argsz[counter + 1] := args[counter].len + 1` for every extra argument
(WITHOUT any bound check against `MAX_ARGC`), and `envsz[counter] :=
key.len + value.len + 2` for the first `MAX_ENVC` environment variables
(the loop body is guarded by `counter < MAX_ENVC`); afterwards it warns when
`counter >= MAX_ENVC`. The `i32` arrays are modelled as `Nat → Int`
functions; the index sequences actually written are recorded separately to
state the in-bounds question the claim is about. -/

/-- `MAX_ARGC = 128` (src/vm.rs). -/
def MAX_ARGC : Nat := 128

/-- `MAX_ENVC = 128` (src/vm.rs). -/
def MAX_ENVC : Nat := 128

/-- Pointwise array update, modelling `a[i] = v` on an `i32` array. -/
def updFn (f : Nat → Int) (i : Nat) (v : Int) : Nat → Int :=
  fun j => if j = i then v else f j

/-- One iteration of the environment loop of `cmdsize` (src/vm.rs): only
when `counter < MAX_ENVC` does it write `envsz[counter]` and increment the
counter; otherwise the variable is dropped. `kv` is the (key length, value
length) pair of the variable. -/
def cmdsizeEnvStep (st : (Nat → Int) × Nat) (kv : Nat × Nat) : (Nat → Int) × Nat :=
  if st.2 < MAX_ENVC then
    (updFn st.1 st.2 ((kv.1 : Int) + kv.2 + 2), st.2 + 1)
  else
    st

/-- The result of `VirtualCPU::cmdsize`: the filled `argc`/`argsz`/`envc`/
`envsz` fields of `SysCmdsize` plus whether the "Environment is too large!"
warning fired. -/
structure CmdsizeResult where
  argc : Int
  argsz : Nat → Int
  envc : Int
  envsz : Nat → Int
  warnedEnvTooLarge : Bool

/-- `VirtualCPU::cmdsize` (src/vm.rs) over the lengths of the inputs:
`pathLen` = `kernel_path` length, `args` = lengths of the extra arguments,
`env` = (key length, value length) pairs of the host environment. -/
def cmdsize (pathLen : Nat) (args : List Nat) (env : List (Nat × Nat))
    (argsz envsz : Nat → Int) : CmdsizeResult :=
  let argsz := updFn argsz 0 ((pathLen : Int) + 1)
  let argsz := args.enum.foldl
    (fun a p => updFn a (p.1 + 1) ((p.2 : Int) + 1)) argsz
  let ec := env.foldl cmdsizeEnvStep (envsz, 0)
  { argc := (args.length : Int) + 1
    argsz := argsz
    envc := (ec.2 : Int)
    envsz := ec.1
    warnedEnvTooLarge := decide (MAX_ENVC ≤ ec.2) }

/-- The `argsz` indices written by `cmdsize`: index 0 (kernel path) and
`counter + 1` for each of the `numArgs` extra arguments — unbounded. -/
def cmdsizeArgszIndices (numArgs : Nat) : List Nat :=
  0 :: (List.range numArgs).map (· + 1)

/-- The `envsz` indices written by `cmdsize`: `0 .. min numEnvs MAX_ENVC`. -/
def cmdsizeEnvszIndices (numEnvs : Nat) : List Nat :=
  List.range (min numEnvs MAX_ENVC)

end Uhyve

namespace Uhyve

/-- The environment fold of `cmdsize`: counter result and frame property. -/
theorem cmdsizeEnvFold (env : List (Nat × Nat)) :
    ∀ (f : Nat → Int) (c : Nat), c ≤ MAX_ENVC →
      (env.foldl cmdsizeEnvStep (f, c)).2 = min (c + env.length) MAX_ENVC ∧
      (∀ j, MAX_ENVC ≤ j → (env.foldl cmdsizeEnvStep (f, c)).1 j = f j) := by
  induction env with
  | nil =>
    intro f c hc
    constructor
    · show c = min (c + List.length ([] : List (Nat × Nat))) MAX_ENVC
      simp only [List.length_nil, MAX_ENVC] at hc ⊢
      omega
    · intro j _
      rfl
  | cons kv rest ih =>
    intro f c hc
    by_cases h : c < MAX_ENVC
    · have step : cmdsizeEnvStep (f, c) kv =
          (updFn f c ((kv.1 : Int) + kv.2 + 2), c + 1) := by
        simp [cmdsizeEnvStep, h]
      simp only [List.foldl_cons, step, List.length_cons]
      obtain ⟨ih1, ih2⟩ := ih (updFn f c ((kv.1 : Int) + kv.2 + 2)) (c + 1) (by omega)
      refine ⟨by rw [ih1]; omega, ?_⟩
      intro j hj
      rw [ih2 j hj]
      have hne : j ≠ c := by
        simp only [MAX_ENVC] at hj h
        omega
      simp [updFn, hne]
    · have step : cmdsizeEnvStep (f, c) kv = (f, c) := by
        simp [cmdsizeEnvStep, h]
      simp only [List.foldl_cons, step, List.length_cons]
      obtain ⟨ih1, ih2⟩ := ih f c hc
      exact ⟨by rw [ih1]; omega, ih2⟩

/-- C10: `cmdsize` writes at most `MAX_ENVC = 128` `envsz` entries — every
written `envsz` index is below 128, indices from 128 up keep their previous
value, `envc = min numEnvs 128 ≤ 128`, and the warning fires iff the
environment has at least 128 variables (extras dropped); by contrast the
`argsz` index sequence is not bounded against `MAX_ARGC`, and all `argsz`
writes are in bounds under the precondition that there are fewer than 127
extra arguments. -/
theorem cmdsize_bounds (pathLen : Nat) (args : List Nat)
    (env : List (Nat × Nat)) (argsz envsz : Nat → Int) :
    ((cmdsize pathLen args env argsz envsz).envc =
        ((min env.length MAX_ENVC : Nat) : Int) ∧
      (cmdsize pathLen args env argsz envsz).envc ≤ 128) ∧
    (∀ i ∈ cmdsizeEnvszIndices env.length, i < MAX_ENVC) ∧
    (∀ j, MAX_ENVC ≤ j →
      (cmdsize pathLen args env argsz envsz).envsz j = envsz j) ∧
    ((cmdsize pathLen args env argsz envsz).warnedEnvTooLarge = true ↔
      MAX_ENVC ≤ env.length) ∧
    (args.length < 127 →
      ∀ i ∈ cmdsizeArgszIndices args.length, i < MAX_ARGC) := by
  obtain ⟨h1, h2⟩ := cmdsizeEnvFold env envsz 0 (Nat.zero_le _)
  constructor
  · constructor
    · simp only [cmdsize, h1, Nat.zero_add]
    · simp only [cmdsize, h1, Nat.zero_add]
      have : min env.length MAX_ENVC ≤ 128 := by
        simp only [MAX_ENVC]; omega
      exact_mod_cast this
  refine ⟨?_, ?_, ?_, ?_⟩
  · intro i hi
    simp only [cmdsizeEnvszIndices, List.mem_range] at hi
    simp only [MAX_ENVC] at hi ⊢
    omega
  · intro j hj
    simp only [cmdsize]
    exact h2 j hj
  · simp only [cmdsize, h1, Nat.zero_add, decide_eq_true_eq]
    constructor
    · intro h
      simp only [MAX_ENVC] at h ⊢
      omega
    · intro h
      simp only [MAX_ENVC] at h ⊢
      omega
  · intro hlt i hi
    simp only [cmdsizeArgszIndices, List.mem_cons, List.mem_map,
      List.mem_range] at hi
    simp only [MAX_ARGC]
    rcases hi with h0 | ⟨k, hk, hik⟩
    · omega
    · omega

/-- Witness for C10 at a concrete configuration (2 extra arguments, one
environment variable). -/
theorem cmdsize_bounds_witness :
    (cmdsize 4 [2, 3] [(1, 2)] (fun _ => 0) (fun _ => 0)).envsz 130 = 0 ∧
    ([2, 3] : List Nat).length < 127 ∧ (2 : Nat) < MAX_ARGC :=
  ⟨(cmdsize_bounds 4 [2, 3] [(1, 2)] (fun _ => 0) (fun _ => 0)).2.2.1 130
      (by decide),
   by decide,
   (cmdsize_bounds 4 [2, 3] [(1, 2)] (fun _ => 0) (fun _ => 0)).2.2.2.2
      (by decide) 2 (by decide)⟩

end Uhyve

namespace Uhyve

/-! ## LOAD segment placement (src/vm.rs, `Vm::load_kernel`)

Guest memory (`vm_slice`) and the kernel file (`buffer`) are modelled as
byte-valued functions `Nat → Nat`; the guest memory length
(`vm_mem_length`) stays explicit because the `InsufficientMemory` check is
against it. -/

/-- `LoadKernelError` (src/vm.rs): `Io`, `Goblin`, `InsufficientMemory`. -/
inductive LoadKernelError where
  | Io
  | Goblin
  | InsufficientMemory
  deriving Repr, DecidableEq

/-- The program-header fields `load_kernel` reads for a LOAD segment. -/
structure ProgramHeaderData where
  p_vaddr : Nat
  p_offset : Nat
  p_filesz : Nat
  p_memsz : Nat
  deriving Repr, DecidableEq

/-- `region_start` of a LOAD segment (src/vm.rs):
`start_address + p_vaddr` for a position-independent image, `p_vaddr`
otherwise. -/
def segmentRegionStart (is_dyn : Bool) (start_address : Nat)
    (ph : ProgramHeaderData) : Nat :=
  if is_dyn then start_address + ph.p_vaddr else ph.p_vaddr

/-- Guest memory after placing one LOAD segment (src/vm.rs):
`vm_slice[region_start..region_end]` receives
`buffer[kernel_start..kernel_end]` (`region_end = region_start + p_filesz`,
`kernel_start = p_offset`) and, when `p_memsz > p_filesz`, the following
`p_memsz − p_filesz` bytes are zeroed; all other bytes keep their value. -/
def loadSegmentBytes (is_dyn : Bool) (start_address : Nat)
    (ph : ProgramHeaderData) (buffer mem : Nat → Nat) : Nat → Nat :=
  let region_start := segmentRegionStart is_dyn start_address ph
  let region_end := region_start + ph.p_filesz
  let kernel_start := ph.p_offset
  fun i =>
    if region_start ≤ i ∧ i < region_end then
      buffer (kernel_start + (i - region_start))
    else if region_end ≤ i ∧ i < region_start + ph.p_memsz then
      0
    else
      mem i

/-- One iteration of the `PT_LOAD` arm of `load_kernel`'s
`try_for_each` (src/vm.rs): fails with `InsufficientMemory` when
`region_start + p_memsz > vm_mem_length`, otherwise places the segment. -/
def loadSegment (is_dyn : Bool) (start_address : Nat)
    (ph : ProgramHeaderData) (buffer mem : Nat → Nat)
    (vm_mem_length : Nat) : Except LoadKernelError (Nat → Nat) :=
  if segmentRegionStart is_dyn start_address ph + ph.p_memsz > vm_mem_length then
    .error .InsufficientMemory
  else
    .ok (loadSegmentBytes is_dyn start_address ph buffer mem)

end Uhyve

namespace Uhyve

/-- C4: placing a LOAD segment fails with `InsufficientMemory` exactly when
`region_start + p_memsz` exceeds the guest memory size; otherwise guest
bytes `[region_start, region_start + p_filesz)` equal file bytes
`[p_offset, p_offset + p_filesz)`, guest bytes
`[region_start + p_filesz, region_start + p_memsz)` are zero, and bytes
outside `[region_start, region_start + p_memsz)` are untouched (the last
needs `p_filesz ≤ p_memsz`, which ELF guarantees and the source assumes). -/
theorem loadSegment_spec (is_dyn : Bool) (start_address : Nat)
    (ph : ProgramHeaderData) (buffer mem : Nat → Nat) (vm_mem_length : Nat)
    (hfm : ph.p_filesz ≤ ph.p_memsz) :
    (vm_mem_length < segmentRegionStart is_dyn start_address ph + ph.p_memsz →
      loadSegment is_dyn start_address ph buffer mem vm_mem_length =
        .error .InsufficientMemory) ∧
    (segmentRegionStart is_dyn start_address ph + ph.p_memsz ≤ vm_mem_length →
      loadSegment is_dyn start_address ph buffer mem vm_mem_length =
        .ok (loadSegmentBytes is_dyn start_address ph buffer mem)) ∧
    (∀ i, i < ph.p_filesz →
      loadSegmentBytes is_dyn start_address ph buffer mem
          (segmentRegionStart is_dyn start_address ph + i) =
        buffer (ph.p_offset + i)) ∧
    (∀ i, ph.p_filesz ≤ i → i < ph.p_memsz →
      loadSegmentBytes is_dyn start_address ph buffer mem
          (segmentRegionStart is_dyn start_address ph + i) = 0) ∧
    (∀ i, i < segmentRegionStart is_dyn start_address ph ∨
        segmentRegionStart is_dyn start_address ph + ph.p_memsz ≤ i →
      loadSegmentBytes is_dyn start_address ph buffer mem i = mem i) := by
  set rs := segmentRegionStart is_dyn start_address ph with hrs
  refine ⟨?_, ?_, ?_, ?_, ?_⟩
  · intro h
    simp only [loadSegment, ← hrs]
    rw [if_pos (by omega)]
  · intro h
    simp only [loadSegment, ← hrs]
    rw [if_neg (by omega)]
  · intro i hi
    simp only [loadSegmentBytes, ← hrs]
    rw [if_pos ⟨by omega, by omega⟩]
    congr 1
    omega
  · intro i hfi hi
    simp only [loadSegmentBytes, ← hrs]
    rw [if_neg (by omega), if_pos ⟨by omega, by omega⟩]
  · intro i hi
    simp only [loadSegmentBytes, ← hrs]
    rw [if_neg (by omega), if_neg (by omega)]

/-- Witness for C4: a non-PIE segment `{p_vaddr = 4, p_offset = 1,
p_filesz = 2, p_memsz = 3}` into a 10-byte guest memory over the file
`i ↦ i + 10`. -/
theorem loadSegment_spec_witness :
    loadSegment false 0 ⟨4, 1, 2, 3⟩ (fun i => i + 10) (fun _ => 7) 10 =
      .ok (loadSegmentBytes false 0 ⟨4, 1, 2, 3⟩ (fun i => i + 10) (fun _ => 7)) ∧
    loadSegmentBytes false 0 ⟨4, 1, 2, 3⟩ (fun i => i + 10) (fun _ => 7)
        (segmentRegionStart false 0 ⟨4, 1, 2, 3⟩ + 0) = (fun i => i + 10) (1 + 0) ∧
    loadSegmentBytes false 0 ⟨4, 1, 2, 3⟩ (fun i => i + 10) (fun _ => 7)
        (segmentRegionStart false 0 ⟨4, 1, 2, 3⟩ + 2) = 0 ∧
    loadSegmentBytes false 0 ⟨4, 1, 2, 3⟩ (fun i => i + 10) (fun _ => 7) 0 =
      (fun _ => (7 : Nat)) 0 :=
  ⟨(loadSegment_spec false 0 ⟨4, 1, 2, 3⟩ (fun i => i + 10) (fun _ => 7) 10
      (by decide)).2.1 (by decide),
   (loadSegment_spec false 0 ⟨4, 1, 2, 3⟩ (fun i => i + 10) (fun _ => 7) 10
      (by decide)).2.2.1 0 (by decide),
   (loadSegment_spec false 0 ⟨4, 1, 2, 3⟩ (fun i => i + 10) (fun _ => 7) 10
      (by decide)).2.2.2.1 2 (by decide) (by decide),
   (loadSegment_spec false 0 ⟨4, 1, 2, 3⟩ (fun i => i + 10) (fun _ => 7) 10
      (by decide)).2.2.2.2 0 (Or.inl (by decide))⟩

end Uhyve

namespace Uhyve

/-! ## Dynamic RELATIVE relocations (src/vm.rs, `load_kernel` dynrelas)

The 64-bit store `*offset = value` of the source is modelled byte-wise
(little-endian, as on both supported targets) on the `Nat → Nat` guest
memory. -/

/-- `R_X86_64_RELATIVE` (ELF ABI, via goblin). -/
def R_X86_64_RELATIVE : Nat := 8

/-- `R_AARCH64_RELATIVE` (ELF ABI, via goblin). -/
def R_AARCH64_RELATIVE : Nat := 1027

/-- The fields of a `goblin` dynamic rela entry used by `load_kernel`. -/
structure Rela where
  r_type : Nat
  r_offset : Nat
  r_addend : Option Int
  deriving Repr, DecidableEq

/-- The relocation kinds patched by `load_kernel`:
`R_X86_64_RELATIVE | R_AARCH64_RELATIVE`. -/
def relaRelative (r : Rela) : Prop :=
  r.r_type = R_X86_64_RELATIVE ∨ r.r_type = R_AARCH64_RELATIVE

instance (r : Rela) : Decidable (relaRelative r) := by
  unfold relaRelative
  infer_instance

/-- Little-endian read of `n` bytes starting at `addr`. -/
def readLE (mem : Nat → Nat) (addr : Nat) : Nat → Nat
  | 0 => 0
  | n + 1 => mem addr + 256 * readLE mem (addr + 1) n

/-- The 64-bit word at `addr` (little-endian). -/
def read64 (mem : Nat → Nat) (addr : Nat) : Nat :=
  readLE mem addr 8

/-- Byte-wise little-endian store of the 64-bit value `val` at `addr`,
modelling the source's `*offset = value` through a `*mut u64`. -/
def store64 (mem : Nat → Nat) (addr val : Nat) : Nat → Nat :=
  fun i =>
    if addr ≤ i ∧ i < addr + 8 then
      val / 256 ^ (i - addr) % 256
    else
      mem i

/-- One iteration of the `dynrelas` loop (src/vm.rs): a RELATIVE relocation
stores `(start_address as i64 + r_addend.unwrap_or(0)) as u64` at guest
address `start_address + r_offset`; every other kind is only logged. -/
def applyRela (start_address : Nat) (mem : Nat → Nat) (rela : Rela) : Nat → Nat :=
  if relaRelative rela then
    store64 mem (start_address + rela.r_offset)
      ((start_address : Int) + rela.r_addend.getD 0).toNat
  else
    mem

/-- The whole `dynrelas` loop of `load_kernel` (src/vm.rs). -/
def applyRelas (start_address : Nat) (mem : Nat → Nat) (relas : List Rela) :
    Nat → Nat :=
  relas.foldl (applyRela start_address) mem

/-- Two relocations patch non-overlapping 64-bit words. -/
def relaDisjoint (r1 r2 : Rela) : Prop :=
  relaRelative r1 → relaRelative r2 →
    r1.r_offset + 8 ≤ r2.r_offset ∨ r2.r_offset + 8 ≤ r1.r_offset

end Uhyve

namespace Uhyve

/-- `readLE` only depends on the bytes in its window. -/
theorem readLE_congr (n : Nat) : ∀ (m1 m2 : Nat → Nat) (addr : Nat),
    (∀ k, k < n → m1 (addr + k) = m2 (addr + k)) →
    readLE m1 addr n = readLE m2 addr n := by
  induction n with
  | zero => intro m1 m2 addr _; rfl
  | succ n ih =>
    intro m1 m2 addr h
    show m1 addr + 256 * readLE m1 (addr + 1) n =
      m2 addr + 256 * readLE m2 (addr + 1) n
    have h0 : m1 addr = m2 addr := by simpa using h 0 (Nat.succ_pos n)
    have htail : ∀ k, k < n → m1 (addr + 1 + k) = m2 (addr + 1 + k) := by
      intro k hk
      have heq : addr + 1 + k = addr + (k + 1) := by omega
      rw [heq]
      exact h (k + 1) (by omega)
    rw [h0, ih m1 m2 (addr + 1) htail]

/-- Reading `n` little-endian bytes of `v` recovers `v mod 256 ^ n`. -/
theorem readLE_bytes (n : Nat) : ∀ (v : Nat) (g : Nat → Nat) (addr : Nat),
    (∀ k, k < n → g (addr + k) = v / 256 ^ k % 256) →
    readLE g addr n = v % 256 ^ n := by
  induction n with
  | zero =>
    intro v g addr _
    simp [readLE, Nat.mod_one]
  | succ n ih =>
    intro v g addr h
    have h0 : g addr = v % 256 := by simpa using h 0 (Nat.succ_pos n)
    have htail : ∀ k, k < n → g (addr + 1 + k) = (v / 256) / 256 ^ k % 256 := by
      intro k hk
      have heq : addr + 1 + k = addr + (k + 1) := by omega
      rw [heq, h (k + 1) (by omega)]
      congr 1
      rw [Nat.div_div_eq_div_mul, ← pow_succ']
    have ihr := ih (v / 256) g (addr + 1) htail
    show g addr + 256 * readLE g (addr + 1) n = v % 256 ^ (n + 1)
    rw [h0, ihr, pow_succ, mul_comm (256 ^ n) 256, Nat.mod_mul]

/-- Reading back a 64-bit store returns the stored value. -/
theorem read64_store64 (mem : Nat → Nat) (addr v : Nat) (hv : v < 2 ^ 64) :
    read64 (store64 mem addr v) addr = v := by
  have hbytes : ∀ k, k < 8 → store64 mem addr v (addr + k) = v / 256 ^ k % 256 := by
    intro k hk
    simp only [store64]
    rw [if_pos ⟨Nat.le_add_right _ _, by omega⟩, Nat.add_sub_cancel_left]
  have h := readLE_bytes 8 v (store64 mem addr v) addr hbytes
  have h256 : (256 : Nat) ^ 8 = 2 ^ 64 := by norm_num
  rw [read64, h, h256, Nat.mod_eq_of_lt hv]

/-- A 64-bit store does not change a disjoint 64-bit word. -/
theorem read64_store64_frame (mem : Nat → Nat) (addr addr' v : Nat)
    (h : addr' + 8 ≤ addr ∨ addr + 8 ≤ addr') :
    read64 (store64 mem addr v) addr' = read64 mem addr' := by
  apply readLE_congr
  intro k hk
  simp only [store64]
  rw [if_neg (by omega)]

/-- A non-RELATIVE relocation leaves guest memory unchanged. -/
theorem applyRela_not_relative (start_address : Nat) (mem : Nat → Nat)
    (r : Rela) (h : ¬ relaRelative r) :
    applyRela start_address mem r = mem := by
  simp only [applyRela, if_neg h]

/-- Applying relocations whose windows avoid `addr`'s word leaves that word
unchanged. -/
theorem applyRelas_frame (s : Nat) (relas : List Rela) (addr : Nat) :
    ∀ mem : Nat → Nat,
      (∀ r ∈ relas, relaRelative r →
        addr + 8 ≤ s + r.r_offset ∨ s + r.r_offset + 8 ≤ addr) →
      read64 (applyRelas s mem relas) addr = read64 mem addr := by
  induction relas with
  | nil => intro mem _; rfl
  | cons r rest ih =>
    intro mem hdis
    show read64 (applyRelas s (applyRela s mem r) rest) addr = read64 mem addr
    rw [ih (applyRela s mem r) (fun r' hr' => hdis r' (List.mem_cons_of_mem r hr'))]
    by_cases hrel : relaRelative r
    · simp only [applyRela, if_pos hrel]
      exact read64_store64_frame mem (s + r.r_offset) addr _
        (hdis r (List.mem_cons_self r rest) hrel)
    · rw [applyRela_not_relative s mem r hrel]

/-- After the `dynrelas` loop, every RELATIVE relocation's word holds its
patched value (provided the patched words are pairwise disjoint). -/
theorem applyRelas_relative (s : Nat) (relas : List Rela) :
    ∀ mem : Nat → Nat, relas.Pairwise relaDisjoint →
    (∀ r ∈ relas, relaRelative r →
      0 ≤ (s : Int) + r.r_addend.getD 0 ∧
      ((s : Int) + r.r_addend.getD 0).toNat < 2 ^ 64) →
    ∀ r ∈ relas, relaRelative r →
      read64 (applyRelas s mem relas) (s + r.r_offset) =
        ((s : Int) + r.r_addend.getD 0).toNat := by
  induction relas with
  | nil =>
    intro mem _ _ r hr
    cases hr
  | cons r0 rest ih =>
    intro mem hdisj hval r hr hrel
    obtain ⟨hd0, hdtail⟩ := List.pairwise_cons.mp hdisj
    rcases List.mem_cons.mp hr with heq | hmem
    · subst heq
      show read64 (applyRelas s (applyRela s mem r) rest) (s + r.r_offset) = _
      rw [applyRelas_frame s rest (s + r.r_offset) (applyRela s mem r)
          (fun r' hr' hrel' => by
            have hd := hd0 r' hr' hrel hrel'
            omega)]
      simp only [applyRela, if_pos hrel]
      exact read64_store64 mem _ _ (hval r (List.mem_cons_self r rest) hrel).2
    · exact ih (applyRela s mem r0) hdtail
        (fun r' h' hrel' => hval r' (List.mem_cons_of_mem r0 h') hrel')
        r hmem hrel

end Uhyve

namespace Uhyve

/-- C5: after the `dynrelas` loop of the Loader, for every dynamic
relocation of kind RELATIVE (x86-64 or AArch64) the 64-bit word in guest
memory at `base + r_offset` equals `base + r_addend` (`r_addend` defaulting
to 0, converted through `i64 → u64` — hence the non-negativity and range
hypotheses mirroring the source's `try_into().unwrap()`), provided the
patched words are pairwise disjoint; every other relocation kind is only
logged and leaves guest memory unchanged. -/
theorem applyRelas_spec (s : Nat) (relas : List Rela) (mem : Nat → Nat)
    (hdisj : relas.Pairwise relaDisjoint)
    (hval : ∀ r ∈ relas, relaRelative r →
      0 ≤ (s : Int) + r.r_addend.getD 0 ∧
      ((s : Int) + r.r_addend.getD 0).toNat < 2 ^ 64) :
    (∀ r ∈ relas, relaRelative r →
      read64 (applyRelas s mem relas) (s + r.r_offset) =
        ((s : Int) + r.r_addend.getD 0).toNat) ∧
    (∀ r : Rela, ¬ relaRelative r → applyRela s mem r = mem) :=
  ⟨applyRelas_relative s relas mem hdisj hval,
   fun r hr => applyRela_not_relative s mem r hr⟩

/-- Witness for C5: the spec's end-to-end scenario 2 — base `0x400000`, one
RELATIVE relocation `{r_offset = 0x2000, r_addend = 0x2000}`; the word at
guest `0x402000` equals `0x402000`. -/
theorem applyRelas_spec_witness :
    read64 (applyRelas 0x400000 (fun _ => 0) [⟨8, 0x2000, some 0x2000⟩])
        (0x400000 + 0x2000) =
      ((0x400000 : Int) + (some (0x2000 : Int)).getD 0).toNat ∧
    ((0x400000 : Int) + (some (0x2000 : Int)).getD 0).toNat = 0x402000 := by
  constructor
  · exact (applyRelas_spec 0x400000 [⟨8, 0x2000, some 0x2000⟩] (fun _ => 0)
      (List.pairwise_singleton _ _)
      (fun r hr _ => by
        rw [List.mem_singleton] at hr
        subst hr
        exact ⟨by decide, by decide⟩)).1
      ⟨8, 0x2000, some 0x2000⟩ (List.mem_singleton_self _) (Or.inl rfl)
  · decide

end Uhyve
